import Mathlib

/-!
Verification of the account-validation controller
(`pkg/controller/validation/account_validation_controller.go`) of the
aws-account-operator repository.

The Go code is shallowly embedded: the AWS Organizations client is an
oracle assigning results to `ListParents`, `MoveAccount` and
`ListTagsForResource` calls; every modelled function additionally returns
the ordered trace of AWS calls it issued, so that absence-of-effect
properties can be stated.  The Go walker `ParentsTillPredicate` recurses
without a bound, so it is modelled with explicit fuel: a result of `none`
means the recursion did not terminate within the fuel (or, for
`MoveAccount`, that the Go code panicked on an out-of-range index).
-/

namespace AccountValidation

/-- One AWS Organizations API call, as issued by the controller.
`moveAccount` records the `MoveAccountInput` fields
(`AccountId`, `DestinationParentId`, `SourceParentId`). -/
inductive AwsCall where
  | listParents (childId : String)
  | moveAccount (accountId : String) (destinationParentId : String) (sourceParentId : String)
  | listTagsForResource (resourceId : String)
deriving DecidableEq, Repr

/-- A tag attached to an AWS account (`organizations.Tag`): key and value. -/
structure Tag where
  key : String
  value : String
deriving DecidableEq, Repr

/-- Oracle for the AWS Organizations client (`awsclient.Client`): the
result each call would return.  `Except.error` is a non-nil Go error. -/
structure AwsClient where
  listParents : String → Except String (List String)
  moveAccount : String → String → String → Except String Unit
  listTagsForResource : String → Except String (List Tag)

/-- The account custom resource, as far as this controller reads it.
`isBYOC` and `isOwnedByAccountPool` model the results of the
`Account.IsBYOC()` and `Account.IsOwnedByAccountPool()` methods, which
live outside this source file; the spec describes them as two boolean
flags on the account. -/
structure Account where
  awsAccountID : String
  isBYOC : Bool
  isOwnedByAccountPool : Bool
deriving DecidableEq, Repr

/-- `ValidationError` enum from the source (lines 42-49). -/
inductive ValidationError where
  | InvalidAccount
  | AccountMoveFailed
  | MissingTag
  | IncorrectOwnerTag
deriving DecidableEq, Repr

/-- A Go `error` value as this controller produces and inspects it:
either a raw error (message only) or an `*AccountValidationError`
carrying a `ValidationError` kind and a message.  The type assertion
`err.(*AccountValidationError)` succeeds exactly on `validation`. -/
inductive GoError where
  | raw (msg : String)
  | validation (t : ValidationError) (msg : String)
deriving DecidableEq, Repr

/-- `ownerKey` constant (line 32). -/
def ownerKey : String := "owner"

/-- One Go `time.Minute` in nanoseconds. -/
def timeMinute : Nat := 60000000000

/-- `moveWaitTime = 5 * time.Minute` (line 31). -/
def moveWaitTime : Nat := 5 * timeMinute

/-- `ParentsTillPredicate` (lines 100-122), with explicit fuel for the Go
recursion.  The first component is `none` when the fuel runs out (the Go
function would still be recursing), otherwise `some` of the Go result:
`Except.error` the returned error, `Except.ok` the final contents of the
`parents` slice.  The second component is the trace of AWS calls made. -/
def ParentsTillPredicate (client : AwsClient) (p : String → Bool) :
    Nat → String → List String → Option (Except String (List String)) × List AwsCall
  | 0, _, _ => (none, [])
  | fuel + 1, awsId, parents =>
    match client.listParents awsId with
    | Except.error e => (some (Except.error e), [AwsCall.listParents awsId])
    | Except.ok ps =>
      match ps with
      | [] => (some (Except.ok parents), [AwsCall.listParents awsId])
      | [id] =>
        if p id then
          (some (Except.ok (parents ++ [id])), [AwsCall.listParents awsId])
        else
          let r := ParentsTillPredicate client p fuel id (parents ++ [id])
          (r.1, AwsCall.listParents awsId :: r.2)
      | _ => (some (Except.error ("More than 1 parents found for Id " ++ awsId)),
              [AwsCall.listParents awsId])

/-- `IsAccountInPoolOU` (lines 126-139).  `none` only when the inner walk
runs out of fuel; any walk error or a path length other than 1 gives
`some false`. -/
def IsAccountInPoolOU (fuel : Nat) (account : Account) (client : AwsClient)
    (isPoolOU : String → Bool) : Option Bool × List AwsCall :=
  if account.awsAccountID = "" then (some false, [])
  else
    match ParentsTillPredicate client isPoolOU fuel account.awsAccountID [] with
    | (none, tr) => (none, tr)
    | (some (Except.error _), tr) => (some false, tr)
    | (some (Except.ok parentList), tr) => (some (decide (parentList.length = 1)), tr)

/-- `MoveAccount` (lines 141-167).  The first component is `none` when Go
panics: line 150 reads `listParentsOutput.Parents[0]` without checking
that the slice is non-empty, so a successful parent query returning zero
parents is an index-out-of-range panic, before the `moveAccount` flag is
consulted.  Otherwise `some none` is a nil return and `some (some e)` the
returned error `e`. -/
def MoveAccount (client : AwsClient) (awsAccountId : String) (targetOU : String)
    (moveAccount : Bool) : Option (Option String) × List AwsCall :=
  match client.listParents awsAccountId with
  | Except.error e => (some (some e), [AwsCall.listParents awsAccountId])
  | Except.ok ps =>
    match ps with
    | [] => (none, [AwsCall.listParents awsAccountId])
    | oldOu :: _ =>
      if moveAccount then
        match client.moveAccount awsAccountId targetOU oldOu with
        | Except.error e =>
          (some (some e), [AwsCall.listParents awsAccountId,
                           AwsCall.moveAccount awsAccountId targetOU oldOu])
        | Except.ok _ =>
          (some none, [AwsCall.listParents awsAccountId,
                       AwsCall.moveAccount awsAccountId targetOU oldOu])
      else (some none, [AwsCall.listParents awsAccountId])

/-- The scan over `resp.Tags` in `ValidateAccountTags` (lines 180-195):
the first tag whose key is `ownerKey` decides the outcome; if none
matches, the result is a `MissingTag` validation error. -/
def scanTags (shardName : String) : List Tag → Option GoError
  | [] => some (GoError.validation ValidationError.MissingTag
      "Account is not tagged with an owner")
  | tag :: rest =>
    if ownerKey = tag.key then
      if shardName ≠ tag.value then
        some (GoError.validation ValidationError.IncorrectOwnerTag
          "Account is not tagged with the correct owner")
      else none
    else scanTags shardName rest

/-- `ValidateAccountTags` (lines 170-196).  `none` is a nil return.  The
`accountTagEnabled` argument is accepted but never read, as in the Go
code. -/
def ValidateAccountTags (client : AwsClient) (accountId : String)
    (shardName : String) (accountTagEnabled : Bool) : Option GoError × List AwsCall :=
  match client.listTagsForResource accountId with
  | Except.error e => (some (GoError.raw e), [AwsCall.listTagsForResource accountId])
  | Except.ok tags => (scanTags shardName tags, [AwsCall.listTagsForResource accountId])

/-- `ValidateAccountOU` (lines 198-233).  The first component is `none`
when a modelled panic or fuel exhaustion occurred inside; otherwise
`some none` is a nil return and `some (some e)` the returned
`*AccountValidationError`. -/
def ValidateAccountOU (fuel : Nat) (client : AwsClient) (account : Account)
    (poolOU : String) (accountMoveEnabled : Bool) :
    Option (Option GoError) × List AwsCall :=
  if account.isBYOC then
    (some (some (GoError.validation ValidationError.InvalidAccount
      "Account is a CCS account")), [])
  else if account.isOwnedByAccountPool then
    (some (some (GoError.validation ValidationError.InvalidAccount
      "Account is in an account pool")), [])
  else
    match IsAccountInPoolOU fuel account client (fun s => s = poolOU) with
    | (none, tr) => (none, tr)
    | (some true, tr) => (some none, tr)
    | (some false, tr) =>
      match MoveAccount client account.awsAccountID poolOU accountMoveEnabled with
      | (none, tr2) => (none, tr ++ tr2)
      | (some (some e), tr2) =>
        (some (some (GoError.validation ValidationError.AccountMoveFailed e)), tr ++ tr2)
      | (some none, tr2) => (some none, tr ++ tr2)

/-- The operator config map: `cm.Data` is a Go `map[string]string`.
A lookup of an absent key yields the zero value `""`, as in Go. -/
structure ConfigMap where
  data : String → Option String

/-- Go map indexing `cm.Data[k]`: the stored value, or `""` if absent. -/
def ConfigMap.get (cm : ConfigMap) (k : String) : String := (cm.data k).getD ""

/-- Go `strconv.ParseBool`: accepts exactly 1, t, T, TRUE, true, True,
0, f, F, FALSE, false, False; anything else is an error (`none`). -/
def parseBool (s : String) : Option Bool :=
  if s = "1" ∨ s = "t" ∨ s = "T" ∨ s = "TRUE" ∨ s = "true" ∨ s = "True" then some true
  else if s = "0" ∨ s = "f" ∨ s = "F" ∨ s = "FALSE" ∨ s = "false" ∨ s = "False" then
    some false
  else none

/-- The two package-level feature gates (lines 26-27):
`accountMoveEnabled` and `accountTagEnabled`. -/
structure GateState where
  accountMoveEnabled : Bool
  accountTagEnabled : Bool
deriving DecidableEq, Repr

/-- The gates' initial values (lines 26-27): both `false`. -/
def initialGateState : GateState := ⟨false, false⟩

/-- The feature-gate update at the start of `Reconcile` (lines 252-266):
each gate is overwritten only when its config value parses as a boolean;
on a parse error (including an absent key) the gate keeps its previous
value and the run continues. -/
def updateGates (cm : ConfigMap) (gs : GateState) : GateState :=
  let gs1 :=
    match parseBool (cm.get "feature.validation_move_account") with
    | some b => { gs with accountMoveEnabled := b }
    | none => gs
  match parseBool (cm.get "feature.validation_tag_account") with
  | some b => { gs1 with accountTagEnabled := b }
  | none => gs1

/-- The outcome `Reconcile` hands back to the controller framework.
`utils.DoNotRequeue()` and `utils.RequeueAfter(d)` live outside this
source file; modelled from the spec: the reconciliation returns either
no-requeue or requeue-after a duration (here in nanoseconds). -/
inductive ReconcileResult where
  | doNotRequeue
  | requeueAfter (d : Nat)
deriving DecidableEq, Repr

/-- The environment a single `Reconcile` call runs in: the account fetch
result, the config-map fetch result, the AWS client the builder
produced, the reconciler's shard name, and fuel for the ancestry walk. -/
structure ReconcileEnv where
  getAccount : Except String Account
  getConfigMap : Except String ConfigMap
  awsClient : AwsClient
  shardName : String
  fuel : Nat

/-- The validation phase of `Reconcile` (lines 279-300), after account
and config map were fetched and the gates updated to `gs`: run
`ValidateAccountOU`, map `InvalidAccount` to no-requeue and
`AccountMoveFailed` to requeue-after `moveWaitTime` (skipping the tag
check), otherwise run `ValidateAccountTags` and return no-requeue. -/
def reconcileValidate (env : ReconcileEnv) (account : Account) (cm : ConfigMap)
    (gs : GateState) : Option ReconcileResult × List AwsCall :=
  match ValidateAccountOU env.fuel env.awsClient account (cm.get "root")
      gs.accountMoveEnabled with
  | (none, tr) => (none, tr)
  | (some ouErr, tr) =>
    match ouErr with
    | some (GoError.validation ValidationError.InvalidAccount _) =>
      (some ReconcileResult.doNotRequeue, tr)
    | some (GoError.validation ValidationError.AccountMoveFailed _) =>
      (some (ReconcileResult.requeueAfter moveWaitTime), tr)
    | _ =>
      let tagR := ValidateAccountTags env.awsClient account.awsAccountID
          env.shardName gs.accountTagEnabled
      (some ReconcileResult.doNotRequeue, tr ++ tagR.2)

/-- `Reconcile` (lines 235-301).  Returns the framework result (`none`
when a modelled panic or fuel exhaustion occurred), the feature-gate
state after this run, and the trace of AWS calls.  A failed account
fetch is no-requeue; a failed config-map fetch is requeue after five
minutes; otherwise the gates are updated and validation runs. -/
def Reconcile (env : ReconcileEnv) (gs : GateState) :
    Option ReconcileResult × GateState × List AwsCall :=
  match env.getAccount with
  | Except.error _ => (some ReconcileResult.doNotRequeue, gs, [])
  | Except.ok account =>
    match env.getConfigMap with
    | Except.error _ => (some (ReconcileResult.requeueAfter (5 * timeMinute)), gs, [])
    | Except.ok cm =>
      let gs2 := updateGates cm gs
      let r := reconcileValidate env account cm gs2
      (r.1, gs2, r.2)

/-- Is this AWS call a `MoveAccount` (reparent) request? -/
def AwsCall.isMove : AwsCall → Bool
  | AwsCall.moveAccount _ _ _ => true
  | _ => false

/-- Number of reparent requests in a trace. -/
def movesIn (tr : List AwsCall) : Nat := (tr.filter AwsCall.isMove).length

/-! ### Concrete fixtures used by witnesses and counterexamples -/

/-- The in-pool predicate `func(s string) bool { return s == poolOU }`
instantiated with pool OU `"poolOU"`. -/
def poolCheck (s : String) : Bool := s = "poolOU"

/-- A test account with a non-empty AWS id, neither BYOC nor pool-owned. -/
def sampleAccount : Account := ⟨"acct", false, false⟩

/-- Organization where `"acct"` sits directly under `"rootX"`, a root of
a subtree disjoint from the pool OU. -/
def sampleDisjointClient : AwsClient where
  listParents := fun s => if s = "acct" then Except.ok ["rootX"] else Except.ok []
  moveAccount := fun _ _ _ => Except.ok ()
  listTagsForResource := fun _ => Except.ok []

/-- Organization where `"acct"` is two levels below the pool OU:
`acct → mid → poolOU`. -/
def sampleTwoLevelClient : AwsClient where
  listParents := fun s =>
    if s = "acct" then Except.ok ["mid"]
    else if s = "mid" then Except.ok ["poolOU"]
    else Except.ok []
  moveAccount := fun _ _ _ => Except.ok ()
  listTagsForResource := fun _ => Except.ok []

/-- Organization where `"acct"` sits directly under the pool OU, and the
account is tagged `owner = shardX`. -/
def samplePoolClient : AwsClient where
  listParents := fun s => if s = "acct" then Except.ok ["poolOU"] else Except.ok []
  moveAccount := fun _ _ _ => Except.ok ()
  listTagsForResource := fun _ => Except.ok [⟨"owner", "shardX"⟩]

/-- A client whose parent queries all fail with error `"boom"`. -/
def sampleErrClient : AwsClient where
  listParents := fun _ => Except.error "boom"
  moveAccount := fun _ _ _ => Except.ok ()
  listTagsForResource := fun _ => Except.ok []

/-- A client whose parent queries all succeed with an empty parent list. -/
def sampleZeroClient : AwsClient where
  listParents := fun _ => Except.ok []
  moveAccount := fun _ _ _ => Except.ok ()
  listTagsForResource := fun _ => Except.ok []

/-- A client reporting two parents for every node. -/
def sampleMultiClient : AwsClient where
  listParents := fun _ => Except.ok ["p1", "p2"]
  moveAccount := fun _ _ _ => Except.ok ()
  listTagsForResource := fun _ => Except.ok []

/-- A config map with no entries at all. -/
def emptyConfigMap : ConfigMap := ⟨fun _ => none⟩

/-- A config map defining only the pool OU id `"root" = "poolOU"`. -/
def rootOnlyConfigMap : ConfigMap :=
  ⟨fun k => if k = "root" then some "poolOU" else none⟩

/-- A BYOC account. -/
def byocAccount : Account := ⟨"acct", true, false⟩

/-- Environment fetching a BYOC account with an empty config map. -/
def envByoc : ReconcileEnv :=
  ⟨Except.ok byocAccount, Except.ok emptyConfigMap, sampleDisjointClient, "shardX", 5⟩

/-- Environment for a well-placed account: `acct` sits directly under
`poolOU`, the config map names `poolOU` as the pool, the account's tag
set is `owner = shardX` and the shard name is `shardX`. -/
def envPool : ReconcileEnv :=
  ⟨Except.ok sampleAccount, Except.ok rootOnlyConfigMap, samplePoolClient, "shardX", 5⟩

/-! ### Claims -/

/-- C3: for every tree-service oracle, `ParentsTillPredicate` follows the
reference recursion: a parent query returning zero parents returns the
accumulated path as-is with no error; exactly one parent `q` is appended
to the path and returned with no error when the predicate holds at `q`;
otherwise the walk recurses from `q` (the fuel successor models one
unfolding of the Go recursion, and the trace records the one query made
at this level). -/
theorem C3_walk_reference_recursion (client : AwsClient) (p : String → Bool)
    (fuel : Nat) (awsId : String) (parents : List String) :
    (client.listParents awsId = Except.ok [] →
      ParentsTillPredicate client p (fuel + 1) awsId parents
        = (some (Except.ok parents), [AwsCall.listParents awsId])) ∧
    (∀ q, client.listParents awsId = Except.ok [q] → p q = true →
      ParentsTillPredicate client p (fuel + 1) awsId parents
        = (some (Except.ok (parents ++ [q])), [AwsCall.listParents awsId])) ∧
    (∀ q, client.listParents awsId = Except.ok [q] → p q = false →
      ParentsTillPredicate client p (fuel + 1) awsId parents
        = ((ParentsTillPredicate client p fuel q (parents ++ [q])).1,
           AwsCall.listParents awsId
             :: (ParentsTillPredicate client p fuel q (parents ++ [q])).2)) := by
  refine ⟨fun h => by simp [ParentsTillPredicate, h],
          fun q h hq => by simp [ParentsTillPredicate, h, hq],
          fun q h hq => by simp [ParentsTillPredicate, h, hq]⟩

/-- C3 witness: in the two-level organization, one unfolding from `acct`
recurses to `mid`, and the walk from `mid` stops at `poolOU`. -/
theorem C3_walk_reference_recursion_witness :
    ParentsTillPredicate sampleTwoLevelClient poolCheck 5 "acct" []
      = ((ParentsTillPredicate sampleTwoLevelClient poolCheck 4 "mid" ["mid"]).1,
         AwsCall.listParents "acct"
           :: (ParentsTillPredicate sampleTwoLevelClient poolCheck 4 "mid" ["mid"]).2) :=
  (C3_walk_reference_recursion sampleTwoLevelClient poolCheck 4 "acct" []).2.2
    "mid" rfl (by decide)

/-- C4: a parent query reporting more than one parent aborts the walk
with the descriptive error of line 113; the trace shows the single query
made at this level, with no further recursion. -/
theorem C4_walk_multiParent_error (client : AwsClient) (p : String → Bool)
    (fuel : Nat) (awsId : String) (parents : List String) (ps : List String)
    (h : client.listParents awsId = Except.ok ps) (hlen : 2 ≤ ps.length) :
    ParentsTillPredicate client p (fuel + 1) awsId parents
      = (some (Except.error ("More than 1 parents found for Id " ++ awsId)),
         [AwsCall.listParents awsId]) := by
  match ps, hlen with
  | a :: b :: rest, _ => simp [ParentsTillPredicate, h]

/-- C4 witness: the two-parent oracle aborts the walk at once. -/
theorem C4_walk_multiParent_error_witness :
    ParentsTillPredicate sampleMultiClient poolCheck 5 "acct" []
      = (some (Except.error ("More than 1 parents found for Id " ++ "acct")),
         [AwsCall.listParents "acct"]) :=
  C4_walk_multiParent_error sampleMultiClient poolCheck 4 "acct" [] ["p1", "p2"]
    rfl (by decide)

/-- C10: `MoveAccount` reads `listParentsOutput.Parents[0]` without a
bounds check, so when the parent query succeeds with zero parents the Go
code panics (modelled as `none`) instead of returning an error — for
either value of the `moveAccount` gate, since the access precedes the
gate check. -/
theorem C10_moveAccount_panics_on_zero_parents (client : AwsClient)
    (awsAccountId targetOU : String) (enabled : Bool)
    (h : client.listParents awsAccountId = Except.ok []) :
    (MoveAccount client awsAccountId targetOU enabled).1 = none := by
  simp [MoveAccount, h]

/-- C10 witness: the zero-parent oracle panics even in dry-run mode. -/
theorem C10_moveAccount_panics_on_zero_parents_witness :
    (MoveAccount sampleZeroClient "acct" "poolOU" false).1 = none :=
  C10_moveAccount_panics_on_zero_parents sampleZeroClient "acct" "poolOU" false rfl

/-- C1 counterexample: `acct` lies in a subtree disjoint from the pool
OU — its only ancestor is `rootX`, which is a root (zero parents) and is
not the pool OU — yet `IsAccountInPoolOU` returns `true`, because the
walk ends with a path of length 1 and line 135 only checks the length,
not whether the predicate ever matched. -/
theorem C1_counterexample :
    sampleDisjointClient.listParents "acct" = Except.ok ["rootX"] ∧
    sampleDisjointClient.listParents "rootX" = Except.ok [] ∧
    poolCheck "rootX" = false ∧
    (ParentsTillPredicate sampleDisjointClient poolCheck 5 "acct" []).1
      = some (Except.ok ["rootX"]) ∧
    (IsAccountInPoolOU 5 sampleAccount sampleDisjointClient poolCheck).1
      = some true :=
  ⟨rfl, rfl, by decide, by rfl, by rfl⟩

/-- C1 (amended): for every account whose ancestry walk terminates
successfully with a path of length other than 1 — which includes every
account more than one level away from the pool OU, and every disjoint
subtree except the one where the account sits directly under a foreign
root — `IsAccountInPoolOU` returns `false`. -/
theorem C1_pathLengthNeOne_notInPool (fuel : Nat) (account : Account)
    (client : AwsClient) (isPoolOU : String → Bool) (path : List String)
    (hwalk : (ParentsTillPredicate client isPoolOU fuel account.awsAccountID []).1
      = some (Except.ok path))
    (hlen : path.length ≠ 1) :
    (IsAccountInPoolOU fuel account client isPoolOU).1 = some false := by
  rcases hP : ParentsTillPredicate client isPoolOU fuel account.awsAccountID []
    with ⟨r, tr⟩
  rw [hP] at hwalk
  simp only at hwalk
  subst hwalk
  by_cases hid : account.awsAccountID = ""
  · simp [IsAccountInPoolOU, hid]
  · simp [IsAccountInPoolOU, hid, hP, hlen]

/-- C1 amended witness: two levels below the pool OU, the walk path is
`[mid, poolOU]` of length 2, and membership is `false`. -/
theorem C1_pathLengthNeOne_notInPool_witness :
    (IsAccountInPoolOU 5 sampleAccount sampleTwoLevelClient poolCheck).1
      = some false :=
  C1_pathLengthNeOne_notInPool 5 sampleAccount sampleTwoLevelClient poolCheck
    ["mid", "poolOU"] (by rfl) (by decide)

/-- C2: `IsAccountInPoolOU` returns `false` when the account's AWS id is
empty; returns `false` when the walk returns an error (never propagating
it); and when the walk terminates successfully it returns `true` exactly
when the path length is 1. -/
theorem C2_inPoolOU_characterization (fuel : Nat) (account : Account)
    (client : AwsClient) (p : String → Bool) :
    (account.awsAccountID = "" →
      (IsAccountInPoolOU fuel account client p).1 = some false) ∧
    (∀ e, account.awsAccountID ≠ "" →
      (ParentsTillPredicate client p fuel account.awsAccountID []).1
        = some (Except.error e) →
      (IsAccountInPoolOU fuel account client p).1 = some false) ∧
    (∀ path, account.awsAccountID ≠ "" →
      (ParentsTillPredicate client p fuel account.awsAccountID []).1
        = some (Except.ok path) →
      (IsAccountInPoolOU fuel account client p).1
        = some (decide (path.length = 1))) := by
  refine ⟨fun hid => by simp [IsAccountInPoolOU, hid], ?_, ?_⟩
  · intro e hid hwalk
    rcases hP : ParentsTillPredicate client p fuel account.awsAccountID []
      with ⟨r, tr⟩
    rw [hP] at hwalk
    simp only at hwalk
    subst hwalk
    simp [IsAccountInPoolOU, hid, hP]
  · intro path hid hwalk
    rcases hP : ParentsTillPredicate client p fuel account.awsAccountID []
      with ⟨r, tr⟩
    rw [hP] at hwalk
    simp only at hwalk
    subst hwalk
    simp [IsAccountInPoolOU, hid, hP]

/-- C2 witness: a failing walk gives `false`; a successful walk with
path `[rootX]` of length 1 gives `true`. -/
theorem C2_inPoolOU_characterization_witness :
    (IsAccountInPoolOU 5 sampleAccount sampleErrClient poolCheck).1 = some false ∧
    (IsAccountInPoolOU 5 sampleAccount sampleDisjointClient poolCheck).1
      = some true :=
  ⟨(C2_inPoolOU_characterization 5 sampleAccount sampleErrClient poolCheck).2.1
      "boom" (by decide) (by rfl),
    by
      have h := (C2_inPoolOU_characterization 5 sampleAccount sampleDisjointClient
        poolCheck).2.2 ["rootX"] (by decide) (by rfl)
      simpa using h⟩

/-- C8 counterexample: with the relocation gate disabled, `MoveAccount`
does not return nil when the current-parent lookup fails — the lookup
error is returned, contradicting "returns success (nil) regardless". -/
theorem C8_counterexample :
    (MoveAccount sampleErrClient "acct" "poolOU" false).1 = some (some "boom") ∧
    (MoveAccount sampleErrClient "acct" "poolOU" false).1
      ≠ some (none : Option String) :=
  ⟨rfl, by decide⟩

/-- C8 (amended): with the relocation gate disabled, no reparent call is
ever issued, and the mover returns nil provided its current-parent
lookup succeeds with a non-empty parent list (a failed lookup returns
the error, and an empty list panics); with the gate enabled, at most one
reparent call is issued per invocation. -/
theorem C8_disabled_no_reparent (client : AwsClient)
    (awsAccountId targetOU : String) :
    movesIn (MoveAccount client awsAccountId targetOU false).2 = 0 ∧
    (∀ ps, client.listParents awsAccountId = Except.ok ps → ps ≠ [] →
      (MoveAccount client awsAccountId targetOU false).1 = some none) ∧
    (∀ enabled, movesIn (MoveAccount client awsAccountId targetOU enabled).2 ≤ 1) := by
  refine ⟨?_, ?_, ?_⟩
  · rcases h : client.listParents awsAccountId with e | ps
    · simp [MoveAccount, h, movesIn, AwsCall.isMove]
    · rcases ps with _ | ⟨oldOu, rest⟩ <;>
        simp [MoveAccount, h, movesIn, AwsCall.isMove]
  · intro ps h hne
    rcases ps with _ | ⟨oldOu, rest⟩
    · exact absurd rfl hne
    · simp [MoveAccount, h]
  · intro enabled
    rcases h : client.listParents awsAccountId with e | ps
    · simp [MoveAccount, h, movesIn, AwsCall.isMove]
    · rcases ps with _ | ⟨oldOu, rest⟩
      · simp [MoveAccount, h, movesIn, AwsCall.isMove]
      · rcases enabled with _ | _
        · simp [MoveAccount, h, movesIn, AwsCall.isMove]
        · rcases hm : client.moveAccount awsAccountId targetOU oldOu with e | u <;>
            simp [MoveAccount, h, hm, movesIn, AwsCall.isMove]

/-- C8 amended witness: with a one-parent lookup and the gate disabled,
the mover returns nil. -/
theorem C8_disabled_no_reparent_witness :
    (MoveAccount samplePoolClient "acct" "newOU" false).1 = some none :=
  (C8_disabled_no_reparent samplePoolClient "acct" "newOU").2.1
    ["poolOU"] rfl (by decide)

/-- C5: a BYOC or pool-owned account short-circuits `ValidateAccountOU`
to an `InvalidAccount` validation error with an empty AWS-call trace (no
membership check, no move), and `Reconcile` returns no-requeue with an
empty trace (no tag check either), leaving only the gate update. -/
theorem C5_invalidAccount_shortCircuit (env : ReconcileEnv) (gs : GateState)
    (account : Account) (cm : ConfigMap)
    (hacct : env.getAccount = Except.ok account)
    (hcm : env.getConfigMap = Except.ok cm)
    (hflag : account.isBYOC = true ∨ account.isOwnedByAccountPool = true) :
    (∀ b poolOU, ∃ msg,
      ValidateAccountOU env.fuel env.awsClient account poolOU b
        = (some (some (GoError.validation ValidationError.InvalidAccount msg)), [])) ∧
    Reconcile env gs = (some ReconcileResult.doNotRequeue, updateGates cm gs, []) := by
  have hval : ∀ b poolOU, ∃ msg,
      ValidateAccountOU env.fuel env.awsClient account poolOU b
        = (some (some (GoError.validation ValidationError.InvalidAccount msg)), []) := by
    intro b poolOU
    rcases hflag with hb | hp
    · exact ⟨"Account is a CCS account", by simp [ValidateAccountOU, hb]⟩
    · rcases hbyoc : account.isBYOC with _ | _
      · exact ⟨"Account is in an account pool", by simp [ValidateAccountOU, hbyoc, hp]⟩
      · exact ⟨"Account is a CCS account", by simp [ValidateAccountOU, hbyoc]⟩
  refine ⟨hval, ?_⟩
  obtain ⟨msg, hv⟩ := hval (updateGates cm gs).accountMoveEnabled (cm.get "root")
  simp [Reconcile, hacct, hcm, reconcileValidate, hv]

/-- C5 witness: the BYOC environment reconciles to no-requeue with no
AWS call at all. -/
theorem C5_invalidAccount_shortCircuit_witness :
    Reconcile envByoc initialGateState
      = (some ReconcileResult.doNotRequeue,
         updateGates emptyConfigMap initialGateState, []) :=
  (C5_invalidAccount_shortCircuit envByoc initialGateState byocAccount
    emptyConfigMap rfl rfl (Or.inl rfl)).2

/-- C6: the classification-to-requeue mapping of `Reconcile`:
`InvalidAccount` gives no-requeue; `AccountMoveFailed` gives
requeue-after `moveWaitTime`, which is exactly 5 minutes, with a trace
showing the tag check was skipped; and on a nil result from the OU phase
the tag check runs (one `ListTagsForResource` call) and the run returns
no-requeue whatever the tag outcome — in particular for `MissingTag`,
`IncorrectOwnerTag` and success. -/
theorem C6_requeue_mapping (env : ReconcileEnv) (gs : GateState)
    (account : Account) (cm : ConfigMap)
    (hacct : env.getAccount = Except.ok account)
    (hcm : env.getConfigMap = Except.ok cm) :
    moveWaitTime = 5 * timeMinute ∧
    (∀ msg tr,
      ValidateAccountOU env.fuel env.awsClient account (cm.get "root")
          (updateGates cm gs).accountMoveEnabled
        = (some (some (GoError.validation ValidationError.InvalidAccount msg)), tr) →
      (Reconcile env gs).1 = some ReconcileResult.doNotRequeue ∧
      (Reconcile env gs).2.2 = tr) ∧
    (∀ msg tr,
      ValidateAccountOU env.fuel env.awsClient account (cm.get "root")
          (updateGates cm gs).accountMoveEnabled
        = (some (some (GoError.validation ValidationError.AccountMoveFailed msg)), tr) →
      (Reconcile env gs).1 = some (ReconcileResult.requeueAfter moveWaitTime) ∧
      (Reconcile env gs).2.2 = tr) ∧
    (∀ tr,
      ValidateAccountOU env.fuel env.awsClient account (cm.get "root")
          (updateGates cm gs).accountMoveEnabled
        = (some none, tr) →
      (Reconcile env gs).1 = some ReconcileResult.doNotRequeue ∧
      (Reconcile env gs).2.2
        = tr ++ [AwsCall.listTagsForResource account.awsAccountID]) := by
  refine ⟨rfl, ?_, ?_, ?_⟩
  · intro msg tr hv
    simp [Reconcile, hacct, hcm, reconcileValidate, hv]
  · intro msg tr hv
    simp [Reconcile, hacct, hcm, reconcileValidate, hv]
  · intro tr hv
    rcases h : env.awsClient.listTagsForResource account.awsAccountID with e | tags <;>
      simp [Reconcile, hacct, hcm, reconcileValidate, hv, ValidateAccountTags, h]

/-- C6 witness: the well-placed account passes the OU check, the tag
check runs, and the run returns no-requeue. -/
theorem C6_requeue_mapping_witness :
    (Reconcile envPool initialGateState).1 = some ReconcileResult.doNotRequeue ∧
    (Reconcile envPool initialGateState).2.2
      = [AwsCall.listParents "acct"]
        ++ [AwsCall.listTagsForResource sampleAccount.awsAccountID] :=
  (C6_requeue_mapping envPool initialGateState sampleAccount rootOnlyConfigMap
    rfl rfl).2.2.2 [AwsCall.listParents "acct"] (by rfl)

/-- On a tag list whose keys are pairwise distinct, the scan succeeds
exactly when some tag carries the owner key with the expected value. -/
lemma scanTags_none_iff (shard : String) (tags : List Tag)
    (hnodup : (tags.map Tag.key).Nodup) :
    scanTags shard tags = none ↔ ∃ t ∈ tags, t.key = ownerKey ∧ t.value = shard := by
  induction tags with
  | nil => simp [scanTags]
  | cons t rest ih =>
    rw [List.map_cons, List.nodup_cons] at hnodup
    by_cases hk : ownerKey = t.key
    · by_cases hv : shard = t.value
      · exact iff_of_true (by simp [scanTags, hk, hv])
          ⟨t, List.mem_cons_self t rest, hk.symm, hv.symm⟩
      · refine iff_of_false (by simp [scanTags, hk, hv]) ?_
        rintro ⟨u, hu, huk, huv⟩
        rcases List.mem_cons.mp hu with h | h
        · subst h
          exact hv huv.symm
        · apply hnodup.1
          have hm : u.key ∈ List.map Tag.key rest := List.mem_map_of_mem Tag.key h
          rwa [huk, hk] at hm
    · rw [show scanTags shard (t :: rest) = scanTags shard rest by
        simp [scanTags, hk]]
      rw [ih hnodup.2]
      constructor
      · rintro ⟨u, hu, huk, huv⟩
        exact ⟨u, List.mem_cons_of_mem t hu, huk, huv⟩
      · rintro ⟨u, hu, huk, huv⟩
        rcases List.mem_cons.mp hu with h | h
        · subst h
          exact absurd huk.symm hk
        · exact ⟨u, h, huk, huv⟩

/-- On a tag list whose keys are pairwise distinct, an owner tag with a
wrong value makes the scan fail with `IncorrectOwnerTag`. -/
lemma scanTags_incorrect (shard : String) (tags : List Tag)
    (hnodup : (tags.map Tag.key).Nodup)
    (t : Tag) (ht : t ∈ tags) (hk : t.key = ownerKey) (hv : t.value ≠ shard) :
    scanTags shard tags
      = some (GoError.validation ValidationError.IncorrectOwnerTag
          "Account is not tagged with the correct owner") := by
  induction tags with
  | nil => cases ht
  | cons u rest ih =>
    rw [List.map_cons, List.nodup_cons] at hnodup
    rcases List.mem_cons.mp ht with h | h
    · subst h
      have hsv : ¬shard = t.value := fun hh => hv hh.symm
      simp [scanTags, hk, hsv]
    · have huk : ownerKey ≠ u.key := by
        intro hh
        exact (hh ▸ hnodup.1) (hk ▸ List.mem_map_of_mem Tag.key h)
      simp only [scanTags, if_neg huk]
      exact ih hnodup.2 h

/-- If no tag carries the owner key, the scan fails with `MissingTag`. -/
lemma scanTags_missing (shard : String) (tags : List Tag)
    (hmiss : ∀ t ∈ tags, t.key ≠ ownerKey) :
    scanTags shard tags
      = some (GoError.validation ValidationError.MissingTag
          "Account is not tagged with an owner") := by
  induction tags with
  | nil => simp [scanTags]
  | cons u rest ih =>
    have hu : ownerKey ≠ u.key :=
      fun hh => hmiss u (List.mem_cons_self u rest) hh.symm
    simp only [scanTags, if_neg hu]
    exact ih fun t ht => hmiss t (List.mem_cons_of_mem u ht)

/-- C7: on a fetched tag set (pairwise-distinct keys), the tag validator
returns nil exactly when an `owner` tag with the expected shard value is
present; an `owner` tag with a different value gives
`IncorrectOwnerTag`; no `owner` tag at all gives `MissingTag`. -/
theorem C7_ownerTag_characterization (client : AwsClient)
    (accountId shard : String) (b : Bool) (tags : List Tag)
    (hok : client.listTagsForResource accountId = Except.ok tags)
    (hnodup : (tags.map Tag.key).Nodup) :
    ((ValidateAccountTags client accountId shard b).1 = none ↔
      ∃ t ∈ tags, t.key = ownerKey ∧ t.value = shard) ∧
    (∀ t ∈ tags, t.key = ownerKey → t.value ≠ shard →
      (ValidateAccountTags client accountId shard b).1
        = some (GoError.validation ValidationError.IncorrectOwnerTag
            "Account is not tagged with the correct owner")) ∧
    ((∀ t ∈ tags, t.key ≠ ownerKey) →
      (ValidateAccountTags client accountId shard b).1
        = some (GoError.validation ValidationError.MissingTag
            "Account is not tagged with an owner")) := by
  refine ⟨?_, ?_, ?_⟩
  · rw [show (ValidateAccountTags client accountId shard b).1 = scanTags shard tags by
      simp [ValidateAccountTags, hok]]
    exact scanTags_none_iff shard tags hnodup
  · intro t ht hk hv
    simp [ValidateAccountTags, hok, scanTags_incorrect shard tags hnodup t ht hk hv]
  · intro hmiss
    simp [ValidateAccountTags, hok, scanTags_missing shard tags hmiss]

/-- C7 witness: the tag set `owner = shardX` validates against expected
owner `shardX`. -/
theorem C7_ownerTag_characterization_witness :
    (ValidateAccountTags samplePoolClient "acct" "shardX" false).1 = none :=
  ((C7_ownerTag_characterization samplePoolClient "acct" "shardX" false
      [⟨"owner", "shardX"⟩] rfl (by simp)).1).mpr
    ⟨⟨"owner", "shardX"⟩, by simp, rfl, rfl⟩

/-- C9: per run, each feature gate is overwritten only by a successful
boolean parse of its config value; an absent key or unparsable value
leaves the gate at its previous value, both gates start disabled
(lines 26-27), and the run proceeds into the validation phase rather
than failing. -/
theorem C9_featureGate_sticky (env : ReconcileEnv) (gs : GateState)
    (account : Account) (cm : ConfigMap)
    (hacct : env.getAccount = Except.ok account)
    (hcm : env.getConfigMap = Except.ok cm) :
    initialGateState = ⟨false, false⟩ ∧
    (Reconcile env gs).2.1 = updateGates cm gs ∧
    (parseBool (cm.get "feature.validation_move_account") = none →
      (updateGates cm gs).accountMoveEnabled = gs.accountMoveEnabled) ∧
    (∀ b, parseBool (cm.get "feature.validation_move_account") = some b →
      (updateGates cm gs).accountMoveEnabled = b) ∧
    (parseBool (cm.get "feature.validation_tag_account") = none →
      (updateGates cm gs).accountTagEnabled = gs.accountTagEnabled) ∧
    (∀ b, parseBool (cm.get "feature.validation_tag_account") = some b →
      (updateGates cm gs).accountTagEnabled = b) ∧
    (Reconcile env gs).1
      = (reconcileValidate env account cm (updateGates cm gs)).1 := by
  refine ⟨rfl, ?_, ?_, ?_, ?_, ?_, ?_⟩
  · simp [Reconcile, hacct, hcm]
  · intro h1
    rcases h2 : parseBool (cm.get "feature.validation_tag_account") with _ | b2 <;>
      simp [updateGates, h1, h2]
  · intro b h1
    rcases h2 : parseBool (cm.get "feature.validation_tag_account") with _ | b2 <;>
      simp [updateGates, h1, h2]
  · intro h2
    rcases h1 : parseBool (cm.get "feature.validation_move_account") with _ | b1 <;>
      simp [updateGates, h1, h2]
  · intro b h2
    rcases h1 : parseBool (cm.get "feature.validation_move_account") with _ | b1 <;>
      simp [updateGates, h1, h2]
  · simp [Reconcile, hacct, hcm]

/-- C9 witness: an empty config map leaves a fully-enabled gate state
unchanged. -/
theorem C9_featureGate_sticky_witness :
    (updateGates emptyConfigMap ⟨true, true⟩).accountMoveEnabled
      = (⟨true, true⟩ : GateState).accountMoveEnabled :=
  (C9_featureGate_sticky envByoc ⟨true, true⟩ byocAccount emptyConfigMap
    rfl rfl).2.2.1 rfl

end AccountValidation
